import Mathlib

/-!
Verification development for the social-media management backend.

The two source files are shallowly embedded here:

* `backend/data_processing.py` — the field normalizers (`clean_boolean`,
  `clean_text`, `clean_email`, `clean_integer`, `clean_float`,
  `clean_datetime`, `clean_location`, `parse_tags`) and the CSV importer
  `import_data`;
* `backend/app.py` — the Flask handlers, modelled as functions on an
  explicit relational store, plus connection-lifecycle abstractions of
  each handler.

Python strings are lists of characters; Python string methods are
modelled for the ASCII range (the repository's CSV data and constants
are ASCII).  Python floats are modelled as exact decimal values
`m * 10 ^ e`; IEEE-754 binary rounding is not modelled, but the
parse-time overflow to `inf` (relevant to `int(float(...))`) is.
-/

set_option maxRecDepth 4000

namespace SMMS

/-- Python strings are modelled as lists of characters. -/
abbrev Str := List Char

/-- ASCII whitespace as recognised by Python `str.strip()` (the model is
restricted to ASCII input). -/
def isPySpace (c : Char) : Bool :=
  c = ' ' || c = '\t' || c = '\n' || c = '\r' || c = '\x0b' || c = '\x0c'

/-- Python `str.strip()`: drop leading and trailing whitespace. -/
def pyStrip (s : Str) : Str :=
  ((s.dropWhile isPySpace).reverse.dropWhile isPySpace).reverse

/-- Python `str.lower()` (ASCII model, via `Char.toLower`). -/
def pyLower (s : Str) : Str := s.map Char.toLower

/-- Does `s` begin with the pattern `pat`? -/
def startsWithStr : Str → Str → Bool
  | [], _ => true
  | _ :: _, [] => false
  | p :: ps, c :: cs => p = c && startsWithStr ps cs

/-- Python substring test `pat in s` (contiguous substring). -/
def hasSub (pat : Str) : Str → Bool
  | [] => startsWithStr pat []
  | c :: cs => startsWithStr pat (c :: cs) || hasSub pat cs

/-- Python `s.replace(cc, c)` for a doubled character (used for
`"@@" → "@"` and `"%%" → "%"`): leftmost-first, non-overlapping. -/
def replaceDouble (ch : Char) : Str → Str
  | [] => []
  | [c] => [c]
  | a :: b :: rest =>
    if a = ch && b = ch then ch :: replaceDouble ch rest
    else a :: replaceDouble ch (b :: rest)

/-- The pattern `"@@"`. -/
def atat : Str := ['@', '@']

/-- The pattern `"%%"`. -/
def pcpc : Str := ['%', '%']

/-- Case-insensitive (ASCII) literal prefix match, returning the rest of
the string on success. -/
def stripPrefixCI : Str → Str → Option Str
  | [], s => some s
  | _ :: _, [] => none
  | p :: ps, c :: cs =>
    if Char.toLower c = Char.toLower p then stripPrefixCI ps cs else none

/-- Model of the anchored regex `,\s*extra,\s*commas\s*$` (with
`re.IGNORECASE`) matched at the head of `s` and reaching the end of the
string.  The greedy `\s*` before a letter is equivalent to dropping all
whitespace, since the following literal starts with a non-space. -/
def matchTailPat (s : Str) : Bool :=
  match s with
  | ',' :: rest =>
    match stripPrefixCI ("extra".data) (rest.dropWhile isPySpace) with
    | some (',' :: r3) =>
      match stripPrefixCI ("commas".data) (r3.dropWhile isPySpace) with
      | some r5 => r5.all isPySpace
      | none => false
    | _ => false
  | _ => false

/-- Model of `re.sub(r',\s*extra,\s*commas\s*$', '', text, IGNORECASE)`:
remove the leftmost end-anchored match, if any (the pattern begins with
a literal comma, so matches start at commas). -/
def stripExtra : Str → Str
  | [] => []
  | c :: rest => if matchTailPat (c :: rest) then [] else c :: stripExtra rest

/- ===========================================
   Python float model
   =========================================== -/

/-- A CPython float as produced by `float(str)`: an exact decimal value
`m * 10 ^ e`, or one of the special values.  Binary rounding of the
decimal value is not modelled. -/
inductive PyFloat where
  | finite (m : Int) (e : Int)
  | inf
  | ninf
  | nan
deriving DecidableEq

/-- Negation of a parsed float magnitude (`float("-nan")` is `nan`). -/
def PyFloat.negate : PyFloat → PyFloat
  | .finite m e => .finite (-m) e
  | .inf => .ninf
  | .ninf => .inf
  | .nan => .nan

/-- Numeric value of a decimal digit. -/
def digitVal (c : Char) : Nat := c.toNat - 48

/-- Value of a digit string, most significant first. -/
def digitsToNat (ds : Str) : Nat := ds.foldl (fun n c => 10 * n + digitVal c) 0

/-- The constant `2 ^ 1024`, the overflow threshold of an IEEE-754 double, as a
literal (kept as a numeral so that kernel evaluation is cheap). -/
def twoPow1024 : Int := 179769313486231590772930519078902473361797697894230657273430081157732675805500963132708477322407536021120113879871393357658789768814416622492847430639474124377767893424865485276302219601246094119453082952085005768838150682342462881473913110540827237163350510684586298239947245938479716304835356329624224137216

/-- Does the decimal `m * 10 ^ e` overflow a double (collapse to
`±inf` in `float(...)`)?  The boundary is modelled as `|value| ≥ 2^1024`
(the final-ulp rounding band is not modelled). -/
def decOverflow (m : Int) (e : Int) : Bool :=
  match e with
  | .ofNat k => twoPow1024 ≤ (m.natAbs : Int) * (10 : Int) ^ k
  | .negSucc k => twoPow1024 * (10 : Int) ^ (k + 1) ≤ (m.natAbs : Int)

/-- Package a parsed decimal mantissa/exponent, collapsing overflow to
`inf` the way C `strtod` (hence Python `float(str)`) does. -/
def mkFinite (m : Int) (e : Int) : PyFloat :=
  if decOverflow m e then .inf else .finite m e

/-- Unsigned part of the CPython `float(str)` grammar: `inf`,
`infinity`, `nan` (case-insensitive) or a decimal literal
`d*[.d*][(e|E)[±]d+]` with at least one mantissa digit.  Digit-group
underscores are not modelled. -/
def parsePyFloatMag (s : Str) : Option PyFloat :=
  if pyLower s = ("inf".data) ∨ pyLower s = ("infinity".data) then some .inf
  else if pyLower s = ("nan".data) then some .nan
  else
    let intPart := s.takeWhile Char.isDigit
    let r1 := s.dropWhile Char.isDigit
    let fr : Str × Str :=
      match r1 with
      | '.' :: t => (t.takeWhile Char.isDigit, t.dropWhile Char.isDigit)
      | _ => ([], r1)
    let fracPart := fr.1
    let r2 := fr.2
    if intPart = [] ∧ fracPart = [] then none
    else
      let m : Int := (digitsToNat (intPart ++ fracPart) : Int)
      let fl : Int := (fracPart.length : Int)
      match r2 with
      | [] => some (mkFinite m (-fl))
      | e :: t =>
        if e = 'e' ∨ e = 'E' then
          let se : Int × Str :=
            match t with
            | '+' :: u => (1, u)
            | '-' :: u => (-1, u)
            | u => (1, u)
          let eds := se.2.takeWhile Char.isDigit
          let rest := se.2.dropWhile Char.isDigit
          if eds = [] ∨ ¬ rest = [] then none
          else some (mkFinite m (se.1 * (digitsToNat eds : Int) - fl))
        else none

/-- Model of CPython `float(s)`: strip whitespace, optional sign, then
the unsigned grammar. -/
def pyParseFloat (s0 : Str) : Option PyFloat :=
  let s := pyStrip s0
  match s with
  | '+' :: t => parsePyFloatMag t
  | '-' :: t => (parsePyFloatMag t).map PyFloat.negate
  | t => parsePyFloatMag t

/-- Python `int(x)` on the exact decimal `m * 10 ^ e`: truncation toward
zero. -/
def decTrunc (m : Int) (e : Int) : Int :=
  match e with
  | .ofNat k => m * (10 : Int) ^ k
  | .negSucc k => Int.tdiv m ((10 : Int) ^ (k + 1))

/-- The Python exceptions that can escape the embedded code. -/
inductive PyErr where
  | overflowErr
deriving DecidableEq

deriving instance DecidableEq for Except

/- ===========================================
   Field normalizers (data_processing.py)
   =========================================== -/

/-- Model of `clean_boolean` (data_processing.py lines 39-64).  `None → 0`;
otherwise `1` iff the stripped, lowercased value is `true`, `1` or
`yes`, else `0` (SQLite integers). -/
def clean_boolean (value : Option Str) : Nat :=
  match value with
  | none => 0
  | some s =>
    let sv := pyLower (pyStrip s)
    if sv = ("true".data) ∨ sv = ("1".data) ∨ sv = ("yes".data) then 1 else 0

/-- Model of `clean_text` (data_processing.py lines 67-89): `None`/empty → `None`;
otherwise strip, replace `%%` by `%`, remove a trailing
`", extra, commas"` pattern (case-insensitive), and strip again; if the
intermediate text is empty the result is `None`. -/
def clean_text (value : Option Str) : Option Str :=
  match value with
  | none => none
  | some s =>
    if s = [] then none
    else
      let t1 := pyStrip s
      let t2 := replaceDouble '%' t1
      let t3 := stripExtra t2
      if t3 = [] then none else some (pyStrip t3)

/-- One pass of the `while '@@' in email` loop is a full
`email.replace('@@', '@')`; the loop itself is modelled with the string
length as fuel, which suffices because every iteration strictly shrinks
the string (`replaceDouble_length_lt` below). -/
def collapseAts : Nat → Str → Str
  | 0, s => s
  | n + 1, s => if hasSub atat s then collapseAts n (replaceDouble '@' s) else s

/-- Model of `clean_email` (data_processing.py lines 92-113): `None`/empty →
`None`; otherwise strip, lowercase, collapse `@@` until none remain;
an empty result is returned as `None`. -/
def clean_email (value : Option Str) : Option Str :=
  match value with
  | none => none
  | some s =>
    if s = [] then none
    else
      let e0 := pyLower (pyStrip s)
      let e1 := collapseAts e0.length e0
      if e1 = [] then none else some e1

/-- Model of `clean_integer` (data_processing.py lines 116-131):
`int(float(str(value).strip()))` inside `try/except (ValueError,
TypeError)`.  A float-parse failure raises `ValueError` (caught → 0);
`int(nan)` raises `ValueError` (caught → 0); `int(±inf)` raises
`OverflowError`, which the `except` clause does not name, so it
escapes. -/
def clean_integer (value : Option Str) : Except PyErr Int :=
  match value with
  | none => .ok 0
  | some s =>
    if s = [] then .ok 0
    else
      match pyParseFloat (pyStrip s) with
      | none => .ok 0
      | some (.finite m e) => .ok (decTrunc m e)
      | some .nan => .ok 0
      | some .inf => .error .overflowErr
      | some .ninf => .error .overflowErr

/-- Model of `clean_float` (data_processing.py lines 134-148): `None`/empty →
`0.0`; parse failure → `0.0`; otherwise the parsed value (which may be
`±inf` or `nan`). -/
def clean_float (value : Option Str) : PyFloat :=
  match value with
  | none => .finite 0 0
  | some s =>
    if s = [] then .finite 0 0
    else
      match pyParseFloat (pyStrip s) with
      | none => .finite 0 0
      | some v => v

/-- One decimal digit, as in the `_strptime` regexes. -/
def pDigit (c : Char) : Option Nat := if c.isDigit then some (digitVal c) else none

/-- Exactly four digits for `%Y`. -/
def p4Year (s : Str) : Option (Nat × Str) :=
  match s with
  | a :: b :: c :: d :: r =>
    match pDigit a, pDigit b, pDigit c, pDigit d with
    | some x, some y, some z, some w => some (1000 * x + 100 * y + 10 * z + w, r)
    | _, _, _, _ => none
  | _ => none

/-- A one- or two-digit numeric field the way `_strptime`'s regexes
behave: the two-digit alternatives are tried first and the engine
backtracks to the single-digit alternative if the continuation `k`
fails. -/
def pField (two : Nat → Bool) (one : Nat → Bool) (k : Nat → Str → Option α) : Str → Option α
  | a :: b :: r =>
    (match pDigit a, pDigit b with
     | some x, some y => if two (10 * x + y) then k (10 * x + y) r else none
     | _, _ => none) <|>
    (match pDigit a with
     | some x => if one x then k x (b :: r) else none
     | none => none)
  | [a] =>
    (match pDigit a with
     | some x => if one x then k x [] else none
     | none => none)
  | [] => none

/-- A literal character of the format string. -/
def pLit (c : Char) (k : Str → Option α) : Str → Option α
  | x :: r => if x = c then k r else none
  | [] => none

/-- Whitespace in a `strptime` format matches `\s+`. -/
def pSpaces (k : Str → Option α) : Str → Option α
  | c :: r => if isPySpace c then k (r.dropWhile isPySpace) else none
  | [] => none

/-- Model of `strptime(s, '%Y-%m-%d %H:%M:%S')` up to the validity checks:
year (4 digits), month `1[0-2]|0[1-9]|[1-9]`, day
`3[01]|[12]\d|0[1-9]|[1-9]`, hour `2[0-3]|[0-1]\d|\d`, minute
`[0-5]\d|\d`, second `6[01]|[0-5]\d|\d`; the whole string must match. -/
def parseYmdHms (s : Str) : Option (Nat × Nat × Nat × Nat × Nat × Nat) :=
  match p4Year s with
  | none => none
  | some (y, r) =>
    pLit '-' (pField (fun v => decide (1 ≤ v) && decide (v ≤ 12)) (fun v => decide (1 ≤ v)) (fun mo =>
      pLit '-' (pField (fun v => decide (1 ≤ v) && decide (v ≤ 31)) (fun v => decide (1 ≤ v)) (fun d =>
        pSpaces (pField (fun v => decide (v ≤ 23)) (fun _ => true) (fun h =>
          pLit ':' (pField (fun v => decide (v ≤ 59)) (fun _ => true) (fun mi =>
            pLit ':' (pField (fun v => decide (v ≤ 61)) (fun _ => true) (fun se r6 =>
              if r6 = [] then some (y, mo, d, h, mi, se) else none)))))))))) r

/-- Model of `strptime(s, '%Y-%m-%d')`: date only, whole string must match. -/
def parseYmd (s : Str) : Option (Nat × Nat × Nat) :=
  match p4Year s with
  | none => none
  | some (y, r) =>
    pLit '-' (pField (fun v => decide (1 ≤ v) && decide (v ≤ 12)) (fun v => decide (1 ≤ v)) (fun mo =>
      pLit '-' (pField (fun v => decide (1 ≤ v) && decide (v ≤ 31)) (fun v => decide (1 ≤ v)) (fun d r3 =>
        if r3 = [] then some (y, mo, d) else none)))) r

/-- Gregorian leap year. -/
def isLeap (y : Nat) : Bool := (y % 4 = 0 && ¬ y % 100 = 0) || y % 400 = 0

/-- Days in a month. -/
def daysInMonth (y mo : Nat) : Nat :=
  if mo = 2 then (if isLeap y then 29 else 28)
  else if mo = 4 ∨ mo = 6 ∨ mo = 9 ∨ mo = 11 then 30 else 31

/-- The constructor `datetime(y, mo, d, ...)` raises `ValueError` outside these bounds
(month bounds are already enforced by the field regexes; `%Y` gives at
most 9999). -/
def validDate (y mo d : Nat) : Bool := decide (1 ≤ y) && decide (d ≤ daysInMonth y mo)

/-- Decimal digits of `n`. -/
def natDigits (n : Nat) : Str := (toString n).data

/-- Zero-pad to two digits (`strftime` `%m`, `%d`, `%H`, `%M`, `%S`). -/
def pad2 (n : Nat) : Str := if n < 10 then '0' :: natDigits n else natDigits n

/-- Zero-pad to four digits (`strftime` `%Y`). -/
def pad4 (n : Nat) : Str :=
  if n < 10 then '0' :: '0' :: '0' :: natDigits n
  else if n < 100 then '0' :: '0' :: natDigits n
  else if n < 1000 then '0' :: natDigits n
  else natDigits n

/-- Model of `strftime('%Y-%m-%d %H:%M:%S')`. -/
def fmtDateTime (y mo d h mi se : Nat) : Str :=
  pad4 y ++ ['-'] ++ pad2 mo ++ ['-'] ++ pad2 d ++ [' '] ++
    pad2 h ++ [':'] ++ pad2 mi ++ [':'] ++ pad2 se

/-- The fallback branch of `clean_datetime`: try `'%Y-%m-%d'` and render
midnight; a `ValueError` (parse or date validity) gives `None`. -/
def clean_datetime_fallback (t : Str) : Option Str :=
  match parseYmd t with
  | none => none
  | some (y, mo, d) =>
    if validDate y mo d then some (fmtDateTime y mo d 0 0 0) else none

/-- Model of `clean_datetime` (data_processing.py lines 151-171): try
`'%Y-%m-%d %H:%M:%S'`; on `ValueError` (no match, invalid date, or a
leap-second value that `datetime` rejects) try `'%Y-%m-%d'` assuming
midnight; on failure `None`. -/
def clean_datetime (value : Option Str) : Option Str :=
  match value with
  | none => none
  | some s =>
    if s = [] then none
    else
      let t := pyStrip s
      match parseYmdHms t with
      | some (y, mo, d, h, mi, se) =>
        if validDate y mo d && decide (se ≤ 59) then some (fmtDateTime y mo d h mi se)
        else clean_datetime_fallback t
      | none => clean_datetime_fallback t

/-- Model of `clean_location` (data_processing.py lines 174-186): `None`, empty,
or the literal string `null` (any case, after stripping) → `None`;
otherwise the stripped value. -/
def clean_location (value : Option Str) : Option Str :=
  match value with
  | none => none
  | some s =>
    if s = [] ∨ pyLower (pyStrip s) = ("null".data) then none
    else some (pyStrip s)

/-- Model of `clean_header` (data_processing.py lines 216-224). -/
def clean_header (h : Str) : Str := pyStrip h

/- ===========================================
   JSON model (json.loads, default settings)
   =========================================== -/

/-- A value produced by `json.loads`: Python `None`, `bool`, `int`,
`float` (kept as its source token; `NaN`/`Infinity` included), `str`,
`list`, `dict`. -/
inductive PyJson where
  | null
  | bool (b : Bool)
  | int (n : Int)
  | float (tok : Str)
  | str (s : Str)
  | arr (elems : List PyJson)
  | obj (fields : List (Str × PyJson))

mutual

/-- Python `repr()` of a loaded JSON value, used when containers are
rendered inside `str()`.  String escaping inside `repr` is not
modelled (no claim depends on container or float rendering). -/
def pyRepr : PyJson → Str
  | .null => ("None".data)
  | .bool true => ("True".data)
  | .bool false => ("False".data)
  | .int n => (toString n).data
  | .float tok => tok
  | .str s => '\'' :: s ++ ['\'']
  | .arr l => '[' :: pyReprList l ++ [']']
  | .obj l => Char.ofNat 123 :: pyReprObj l ++ [Char.ofNat 125]

/-- Comma-separated `repr`s of list elements. -/
def pyReprList : List PyJson → Str
  | [] => []
  | [x] => pyRepr x
  | x :: y :: xs => pyRepr x ++ [',', ' '] ++ pyReprList (y :: xs)

/-- Comma-separated `repr`s of dict entries. -/
def pyReprObj : List (Str × PyJson) → Str
  | [] => []
  | [(k, v)] => '\'' :: k ++ ['\'', ':', ' '] ++ pyRepr v
  | (k, v) :: e :: xs => '\'' :: k ++ ['\'', ':', ' '] ++ pyRepr v ++ [',', ' '] ++ pyReprObj (e :: xs)

end

/-- Python `str()` of a loaded JSON value, as applied to each tag
element in `parse_tags`: strings pass through unquoted, everything else
renders as its `repr`. -/
def pyStr : PyJson → Str
  | .str s => s
  | v => pyRepr v

/-- JSON whitespace (RFC 8259: space, tab, newline, carriage return). -/
def isJsonWs (c : Char) : Bool := c = ' ' || c = '\t' || c = '\n' || c = '\r'

/-- Skip JSON whitespace. -/
def skipWs (s : Str) : Str := s.dropWhile isJsonWs

/-- Hex digit value for `\uXXXX` escapes. -/
def hexVal (c : Char) : Option Nat :=
  if c.isDigit then some (digitVal c)
  else if 'a' ≤ c ∧ c ≤ 'f' then some (c.toNat - 87)
  else if 'A' ≤ c ∧ c ≤ 'F' then some (c.toNat - 55)
  else none

/-- Body of a JSON string after the opening quote (strict mode: raw
control characters are rejected; surrogate-pair recombination is not
modelled). -/
def pJsonStr : Nat → Str → Option (Str × Str)
  | 0, _ => none
  | _ + 1, [] => none
  | n + 1, c :: r =>
    if c = '"' then some ([], r)
    else if c = '\\' then
      match r with
      | [] => none
      | e :: r2 =>
        let esc : Option (Char × Str) :=
          if e = '"' then some ('"', r2)
          else if e = '\\' then some ('\\', r2)
          else if e = '/' then some ('/', r2)
          else if e = 'b' then some ('\x08', r2)
          else if e = 'f' then some ('\x0c', r2)
          else if e = 'n' then some ('\n', r2)
          else if e = 'r' then some ('\r', r2)
          else if e = 't' then some ('\t', r2)
          else if e = 'u' then
            match r2 with
            | h1 :: h2 :: h3 :: h4 :: r3 =>
              match hexVal h1, hexVal h2, hexVal h3, hexVal h4 with
              | some a, some b, some cc, some d =>
                some (Char.ofNat (4096 * a + 256 * b + 16 * cc + d), r3)
              | _, _, _, _ => none
            | _ => none
          else none
        match esc with
        | none => none
        | some (ch, r3) =>
          match pJsonStr n r3 with
          | some (cs, rest) => some (ch :: cs, rest)
          | none => none
    else if c.toNat < 32 then none
    else
      match pJsonStr n r with
      | some (cs, rest) => some (c :: cs, rest)
      | none => none

/-- JSON number grammar: `-?(0|[1-9][0-9]*)(\.[0-9]+)?([eE][+-]?[0-9]+)?`.
Integral tokens load as Python `int`, others as `float` (kept as their
token). -/
def pJsonNum (s : Str) : Option (PyJson × Str) :=
  let sgn : Bool × Str := match s with
    | '-' :: t => (true, t)
    | t => (false, t)
  let neg := sgn.1
  let t := sgn.2
  let ip : Option (Str × Str) :=
    match t with
    | '0' :: r => some (['0'], r)
    | c :: r =>
      if c.isDigit ∧ ¬ c = '0' then some (c :: r.takeWhile Char.isDigit, r.dropWhile Char.isDigit)
      else none
    | [] => none
  match ip with
  | none => none
  | some (ids, r1) =>
    let fp : Option (Str × Str) :=
      match r1 with
      | '.' :: u =>
        let ds := u.takeWhile Char.isDigit
        if ds = [] then none else some ('.' :: ds, u.dropWhile Char.isDigit)
      | _ => some ([], r1)
    match fp with
    | none => none
    | some (fds, r2) =>
      let ep : Option (Str × Str) :=
        match r2 with
        | c :: u =>
          if c = 'e' ∨ c = 'E' then
            let su : Str × Str := match u with
              | '+' :: w => (['+'], w)
              | '-' :: w => (['-'], w)
              | w => ([], w)
            let ds := su.2.takeWhile Char.isDigit
            if ds = [] then none else some (c :: su.1 ++ ds, su.2.dropWhile Char.isDigit)
          else some ([], r2)
        | [] => some ([], r2)
      match ep with
      | none => none
      | some (eds, r3) =>
        let tok := (if neg then ['-'] else []) ++ ids ++ fds ++ eds
        if fds = [] ∧ eds = [] then
          some (.int ((if neg then -1 else 1) * (digitsToNat ids : Int)), r3)
        else
          some (.float tok, r3)

mutual

/-- Recursive-descent JSON value parser (fuel-indexed; `pyJsonLoads`
supplies fuel exceeding the input length, which suffices since every
recursive call consumes at least one character). -/
def pJsonVal : Nat → Str → Option (PyJson × Str)
  | 0, _ => none
  | n + 1, s =>
    match s with
    | [] => none
    | c :: r =>
      if c = '"' then (pJsonStr (n + 1) r).map (fun p => (.str p.1, p.2))
      else if c = '[' then
        match skipWs r with
        | ']' :: r2 => some (.arr [], r2)
        | r1 => (pJsonArr n r1).map (fun p => (.arr p.1, p.2))
      else if c = Char.ofNat 123 then
        match skipWs r with
        | r1 =>
          if startsWithStr [Char.ofNat 125] r1 then some (.obj [], r1.drop 1)
          else (pJsonObj n r1).map (fun p => (.obj p.1, p.2))
      else if startsWithStr ("true".data) s then some (.bool true, s.drop 4)
      else if startsWithStr ("false".data) s then some (.bool false, s.drop 5)
      else if startsWithStr ("null".data) s then some (.null, s.drop 4)
      else if startsWithStr ("NaN".data) s then some (.float ("nan".data), s.drop 3)
      else if startsWithStr ("Infinity".data) s then some (.float ("inf".data), s.drop 8)
      else if startsWithStr ("-Infinity".data) s then some (.float ("-inf".data), s.drop 9)
      else pJsonNum s

/-- Elements of a JSON array after `[` (first element expected). -/
def pJsonArr : Nat → Str → Option (List PyJson × Str)
  | 0, _ => none
  | n + 1, s =>
    match pJsonVal n s with
    | none => none
    | some (v, r) =>
      match skipWs r with
      | ',' :: r2 =>
        match pJsonArr n (skipWs r2) with
        | some (vs, r3) => some (v :: vs, r3)
        | none => none
      | ']' :: r2 => some ([v], r2)
      | _ => none

/-- Members of a JSON object after the opening brace (first member
expected). -/
def pJsonObj : Nat → Str → Option (List (Str × PyJson) × Str)
  | 0, _ => none
  | n + 1, s =>
    match s with
    | '"' :: r =>
      match pJsonStr n r with
      | none => none
      | some (k, r1) =>
        match skipWs r1 with
        | ':' :: r2 =>
          match pJsonVal n (skipWs r2) with
          | none => none
          | some (v, r3) =>
            match skipWs r3 with
            | ',' :: r4 =>
              match pJsonObj n (skipWs r4) with
              | some (ms, r5) => some ((k, v) :: ms, r5)
              | none => none
            | r4 =>
              if startsWithStr [Char.ofNat 125] r4 then some ([(k, v)], r4.drop 1)
              else none
        | _ => none
    | _ => none

end

/-- Model of `json.loads(s)` with CPython's default settings
(`allow_nan` on): leading/trailing whitespace allowed around exactly
one value; `none` models `json.JSONDecodeError`. -/
def pyJsonLoads (s : Str) : Option PyJson :=
  match pJsonVal (s.length + 1) (skipWs s) with
  | some (v, rest) => if skipWs rest = [] then some v else none
  | none => none

/-- The tag-cleaning loop of `parse_tags` (data_processing.py lines
205-210): coerce to `str`, strip, drop empty and already-seen tags. -/
def cleanedTagsLoop (acc : List Str) : List PyJson → List Str
  | [] => acc
  | t :: ts =>
    let tag := pyStrip (pyStr t)
    if ¬ tag = [] ∧ ¬ tag ∈ acc then cleanedTagsLoop (acc ++ [tag]) ts
    else cleanedTagsLoop acc ts

/-- The `isinstance(tags, list)` dispatch of `parse_tags` (lines
202-211) applied to the loaded JSON value. -/
def parseTagsVal : PyJson → List Str
  | .arr l => cleanedTagsLoop [] l
  | _ => []

/-- Model of `parse_tags` (data_processing.py lines 189-213): `None`/empty →
`[]`; `json.JSONDecodeError` → `[]`; a non-list value → `[]`; a list →
the cleaned, deduplicated tags. -/
def parse_tags (value : Option Str) : List Str :=
  match value with
  | none => []
  | some s =>
    if s = [] then []
    else
      match pyJsonLoads s with
      | none => []
      | some v => parseTagsVal v

/- ===========================================
   Relational store (schema of create_database_schema)
   =========================================== -/

/-- A row of the `authors` table (data_processing.py lines 254-267).
`created_at` (a wall-clock default) is not modelled. -/
structure Author where
  id : Nat
  first_name : Option Str
  last_name : Option Str
  email : Str
  company : Option Str
  job_title : Option Str
  bio : Option Str
  follower_count : Int
  verified : Nat
deriving DecidableEq

/-- A row of the `posts` table (lines 276-293); `created_at` is not
modelled. -/
structure Post where
  id : Int
  author_id : Nat
  text : Option Str
  date : Option Str
  likes : Int
  comments : Int
  shares : Int
  total_engagements : Int
  engagement_rate : PyFloat
  image_svg : Option Str
  category : Option Str
  location : Option Str
deriving DecidableEq

/-- The SQLite database: `authors` (with its AUTOINCREMENT counter),
`posts`, and `post_tags` rows in insertion order.  A `post_tags` row is
the pair (post_id, tag); its own AUTOINCREMENT id carries no
information and is dropped. -/
structure Store where
  authors : List Author
  nextAuthorId : Nat
  posts : List Post
  post_tags : List (Int × Str)
deriving DecidableEq

/-- A freshly created schema (`create_database_schema` drops and
recreates all three tables). -/
def emptyStore : Store := ⟨[], 1, [], []⟩

/-- Model of `SELECT id FROM authors WHERE email = ?` (first match). -/
def findAuthorId (s : Store) (e : Str) : Option Nat :=
  (s.authors.find? (fun a => a.email = e)).map Author.id

/-- Running maximum over the remaining posts. -/
def maxPostIdAux (m : Int) : List Post → Int
  | [] => m
  | p :: ps => maxPostIdAux (max m p.id) ps

/-- Model of `SELECT MAX(id) FROM posts` combined with the handler's `or 0`. -/
def maxPostId : List Post → Int
  | [] => 0
  | p :: ps => maxPostIdAux p.id ps

/- ===========================================
   Importer (import_data, data_processing.py lines 325-484)
   =========================================== -/

/-- One CSV record, with the fields `import_data` reads (after header
cleaning); a missing column reads as the empty string. -/
structure Row where
  author_first_name : Str
  author_last_name : Str
  author_email : Str
  author_company : Str
  author_job_title : Str
  author_bio : Str
  author_follower_count : Str
  author_verified : Str
  post_id : Str
  post_text : Str
  post_date : Str
  likes : Str
  comments : Str
  shares : Str
  total_engagements : Str
  engagement_rate : Str
  post_image_svg : Str
  post_category : Str
  location : Str
  post_tags : Str
deriving DecidableEq

/-- The `issues_fixed` tallies of `import_data` (lines 346-354). -/
structure IssuesFixed where
  boolean_inconsistency : Nat
  double_percent : Nat
  extra_commas : Nat
  null_locations : Nat
  missing_images : Nat
  duplicate_tags : Nat
  double_at_emails : Nat
deriving DecidableEq

/-- The `stats` dictionary of `import_data` (lines 341-355). -/
structure Stats where
  total_rows : Nat
  authors_created : Nat
  posts_created : Nat
  tags_created : Nat
  issues_fixed : IssuesFixed
deriving DecidableEq

/-- The importer's loop state: the database, the `authors_cache`
dictionary (email → author id; most recent binding first), and the
statistics. -/
structure ImportState where
  store : Store
  cache : List (Str × Nat)
  stats : Stats
deriving DecidableEq

/-- Model of `authors_cache.get(email)`. -/
def lookupCache (c : List (Str × Nat)) (e : Str) : Option Nat :=
  (c.find? (fun p => p.1 = e)).map Prod.snd

/-- All zero statistics (line 341). -/
def initStats : Stats := ⟨0, 0, 0, 0, ⟨0, 0, 0, 0, 0, 0, 0⟩⟩

/-- Importer state at the start of `import_data` on a fresh schema. -/
def initImportState : ImportState := ⟨emptyStore, [], initStats⟩

/-- Bump `issues_fixed['double_at_emails']`. -/
def bumpDoubleAt (st : Stats) : Stats :=
  { st with issues_fixed := { st.issues_fixed with double_at_emails := st.issues_fixed.double_at_emails + 1 } }

/-- Bump `issues_fixed['boolean_inconsistency']`. -/
def bumpBoolean (st : Stats) : Stats :=
  { st with issues_fixed := { st.issues_fixed with boolean_inconsistency := st.issues_fixed.boolean_inconsistency + 1 } }

/-- Bump `issues_fixed['double_percent']`. -/
def bumpDoublePercent (st : Stats) : Stats :=
  { st with issues_fixed := { st.issues_fixed with double_percent := st.issues_fixed.double_percent + 1 } }

/-- Bump `issues_fixed['extra_commas']`. -/
def bumpExtraCommas (st : Stats) : Stats :=
  { st with issues_fixed := { st.issues_fixed with extra_commas := st.issues_fixed.extra_commas + 1 } }

/-- Bump `issues_fixed['missing_images']`. -/
def bumpMissingImages (st : Stats) : Stats :=
  { st with issues_fixed := { st.issues_fixed with missing_images := st.issues_fixed.missing_images + 1 } }

/-- Bump `issues_fixed['null_locations']`. -/
def bumpNullLocations (st : Stats) : Stats :=
  { st with issues_fixed := { st.issues_fixed with null_locations := st.issues_fixed.null_locations + 1 } }

/-- The tag-insertion loop (lines 466-476): `pt` is the `post_tags`
table, `tc` the `tags_created` counter, `dup` the
`issues_fixed['duplicate_tags']` counter, `seen` the `seen_tags` set. -/
def insertTags (pid : Int) (pt : List (Int × Str)) (tc dup : Nat) (seen : List Str) :
    List Str → List (Int × Str) × Nat × Nat
  | [] => (pt, tc, dup)
  | t :: ts =>
    if ¬ t ∈ seen then insertTags pid (pt ++ [(pid, t)]) (tc + 1) dup (t :: seen) ts
    else insertTags pid pt tc (dup + 1) seen ts

/-- Lines 436-448 of `import_data`: `if email and email not in
authors_cache:` insert-or-ignore the author, then `SELECT id`, updating
the cache and `authors_created` when a row is found.  `INSERT OR
IGNORE` silently skips the insert when the UNIQUE email already exists
or a NOT NULL column (first_name, last_name) would be null. -/
def authorStep (store : Store) (cache : List (Str × Nat)) (stats : Stats)
    (email : Option Str) (first_name last_name company job_title bio : Option Str)
    (fc : Int) (verified : Nat) : Store × List (Str × Nat) × Stats :=
  match email with
  | none => (store, cache, stats)
  | some e =>
    if (lookupCache cache e).isSome then (store, cache, stats)
    else
      let store1 :=
        if findAuthorId store e = none ∧ ¬ first_name = none ∧ ¬ last_name = none then
          { store with
            authors := store.authors ++
              [⟨store.nextAuthorId, first_name, last_name, e, company, job_title, bio, fc, verified⟩],
            nextAuthorId := store.nextAuthorId + 1 }
        else store
      match findAuthorId store1 e with
      | some aid => (store1, (e, aid) :: cache, { stats with authors_created := stats.authors_created + 1 })
      | none => (store1, cache, stats)

/-- Lines 456-476 of `import_data`: `INSERT OR REPLACE INTO posts`
followed by the tag-insertion loop. -/
def postTagStep (store : Store) (stats : Stats) (p : Post) (tags : List Str) : Store × Stats :=
  let posts1 := (store.posts.filter (fun q => ¬ q.id = p.id)) ++ [p]
  let statsB := { stats with posts_created := stats.posts_created + 1 }
  let r := insertTags p.id store.post_tags statsB.tags_created statsB.issues_fixed.duplicate_tags [] tags
  let statsC0 := { statsB with tags_created := r.2.1 }
  let statsC := { statsC0 with issues_fixed := { statsC0.issues_fixed with duplicate_tags := r.2.2 } }
  ({ store with posts := posts1, post_tags := r.1 }, statsC)

/-- The body of the per-row loop of `import_data` (lines 368-480),
given the six successfully cleaned integer fields (`fc` =
follower_count, then post id, likes, comments, shares,
total_engagements, in source order). -/
def importRowCore (st : ImportState) (row : Row) (fc pid lk cm sh te : Int) : ImportState :=
  let s1 := { st.stats with total_rows := st.stats.total_rows + 1 }
  let first_name := clean_text (some row.author_first_name)
  let last_name := clean_text (some row.author_last_name)
  let email := clean_email (some row.author_email)
  let s2 := if hasSub atat row.author_email then bumpDoubleAt s1 else s1
  let company := clean_text (some row.author_company)
  let job_title := clean_text (some row.author_job_title)
  let bio := clean_text (some row.author_bio)
  let verified := clean_boolean (some row.author_verified)
  let s3 :=
    if ¬ (pyLower row.author_verified = ("true".data) ∨ pyLower row.author_verified = ("false".data) ∨
          pyLower row.author_verified = ("0".data) ∨ pyLower row.author_verified = ("1".data) ∨
          pyLower row.author_verified = []) then bumpBoolean s2 else s2
  let post_text := clean_text (some row.post_text)
  let s4 := if hasSub pcpc row.post_text then bumpDoublePercent s3 else s3
  let s5 := if hasSub ("extra, commas".data) (pyLower row.post_text) then bumpExtraCommas s4 else s4
  let post_date := clean_datetime (some row.post_date)
  let engagement_rate := clean_float (some row.engagement_rate)
  let image_svg := clean_text (some row.post_image_svg)
  let s6 := if image_svg = none ∨ image_svg = some [] then bumpMissingImages s5 else s5
  let category := clean_text (some row.post_category)
  let location := clean_location (some row.location)
  let s7 :=
    if pyLower (pyStrip row.location) = ("null".data) ∨ pyLower (pyStrip row.location) = [] then
      bumpNullLocations s6
    else s6
  let tags := parse_tags (some row.post_tags)
  let a := authorStep st.store st.cache s7 email first_name last_name company job_title bio fc verified
  -- lines 450-453: `author_id = authors_cache.get(email)`; skip the row if none.
  match (match email with | none => none | some e => lookupCache a.2.1 e) with
  | none => ⟨a.1, a.2.1, a.2.2⟩
  | some aid =>
    let ps := postTagStep a.1 a.2.2
      ⟨pid, aid, post_text, post_date, lk, cm, sh, te, engagement_rate, image_svg, category, location⟩ tags
    ⟨ps.1, a.2.1, ps.2⟩

/-- One iteration of the `for row in reader` loop.  The six
`clean_integer` calls are made in source order; an uncaught
`OverflowError` from any of them aborts the whole import. -/
def importRow (st : ImportState) (row : Row) : Except PyErr ImportState :=
  match clean_integer (some row.author_follower_count) with
  | .error e => .error e
  | .ok fc =>
    match clean_integer (some row.post_id) with
    | .error e => .error e
    | .ok pid =>
      match clean_integer (some row.likes) with
      | .error e => .error e
      | .ok lk =>
        match clean_integer (some row.comments) with
        | .error e => .error e
        | .ok cm =>
          match clean_integer (some row.shares) with
          | .error e => .error e
          | .ok sh =>
            match clean_integer (some row.total_engagements) with
            | .error e => .error e
            | .ok te => .ok (importRowCore st row fc pid lk cm sh te)

/-- Model of `import_data` over a list of CSV rows, starting from the freshly
recreated schema. -/
def import_data (rows : List Row) : Except PyErr ImportState :=
  rows.foldlM importRow initImportState

/- ===========================================
   HTTP handlers (app.py), modelled on the store
   =========================================== -/

/-- Lexicographic (byte-wise) string comparison, as SQLite's default
BINARY collation compares TEXT values. -/
def strLE : Str → Str → Bool
  | [], _ => true
  | _ :: _, [] => false
  | x :: xs, y :: ys => if x = y then strLE xs ys else decide (x < y)

/-- SQLite ordering on a nullable TEXT column: NULL sorts before any
text value. -/
def sqlValLE : Option Str → Option Str → Bool
  | none, _ => true
  | some _, none => false
  | some a, some b => strLE a b

/-- SQL `col LIKE '%pat%'` on a nullable column: NULL yields false;
LIKE is case-insensitive for ASCII. -/
def likeCI (pat : Str) (v : Option Str) : Bool :=
  match v with
  | none => false
  | some s => hasSub (pyLower pat) (pyLower s)

/-- SQL `a.first_name || " " || a.last_name` (NULL if either part is
NULL). -/
def fullNameCol (a : Author) : Option Str :=
  match a.first_name, a.last_name with
  | some f, some l => some (f ++ [' '] ++ l)
  | _, _ => none

/-- Model of `JOIN authors a ON p.author_id = a.id` in storage order. -/
def joinRows (s : Store) : List (Post × Author) :=
  s.posts.filterMap (fun p => (s.authors.find? (fun a => a.id = p.author_id)).map (fun a => (p, a)))

/-- Query parameters of `GET /api/posts` after the handler's `strip()`
and `int()` conversions; an empty string means the filter is absent. -/
structure PostsQuery where
  search : Str
  category : Str
  dateFrom : Str
  dateTo : Str
  sortBy : Str
  page : Nat
  limit : Nat
deriving DecidableEq

/-- The WHERE clause built in app.py lines 230-248 (and identically for
the count query, lines 275-286). -/
def rowMatches (q : PostsQuery) (pr : Post × Author) : Bool :=
  (q.search = [] ||
    (likeCI q.search pr.1.text || likeCI q.search pr.2.first_name ||
     likeCI q.search pr.2.last_name || likeCI q.search (fullNameCol pr.2))) &&
  (q.category = [] || pr.1.category = some q.category) &&
  (q.dateFrom = [] || (match pr.1.date with | none => false | some d => strLE q.dateFrom d)) &&
  (q.dateTo = [] ||
    (match pr.1.date with | none => false | some d => strLE d (q.dateTo ++ (" 23:59:59".data))))

/-- The ORDER BY comparator (lines 251-258): `oldest` → date ASC,
`mostLiked` → likes DESC, `mostCommented` → comments DESC, anything
else → date DESC. -/
def sortLE (sortBy : Str) (x y : Post × Author) : Bool :=
  if sortBy = ("oldest".data) then sqlValLE x.1.date y.1.date
  else if sortBy = ("mostLiked".data) then decide (y.1.likes ≤ x.1.likes)
  else if sortBy = ("mostCommented".data) then decide (y.1.comments ≤ x.1.comments)
  else sqlValLE y.1.date x.1.date

/-- Stable insertion into a sorted list: an element is placed before
the first entry it compares ≤ to, so ties keep storage order (the
spec's tie-breaking rule). -/
def insertLE (le : α → α → Bool) (x : α) : List α → List α
  | [] => [x]
  | y :: ys => if le x y then x :: y :: ys else y :: insertLE le x ys

/-- Stable sort by the comparator (a model of SQL ORDER BY; stability
models "ties broken by underlying storage order"). -/
def sortByLE (le : α → α → Bool) : List α → List α
  | [] => []
  | x :: xs => insertLE le x (sortByLE le xs)

/-- One post of the JSON response of `GET /api/posts`, with its joined
author and its tags (lines 300-338). -/
structure PostOut where
  post : Post
  author : Author
  tags : List Str
deriving DecidableEq

/-- The JSON response of `GET /api/posts` (lines 345-355). -/
structure PostsOut where
  posts : List PostOut
  currentPage : Nat
  totalPages : Nat
  totalPosts : Nat
  postsPerPage : Nat
  hasNext : Bool
  hasPrev : Bool
deriving DecidableEq

/-- Model of `GET /api/posts` (app.py lines 172-358): filter, count, sort, page,
attach tags, and report pagination metadata with ceiling division.
With `limit=0` the handler raises `ZeroDivisionError` after closing the
connection (see `postsConn`); this store-level model is only used under
the pagination claim's `1 ≤ limit` condition, where the behaviours
agree. -/
def get_posts (s : Store) (q : PostsQuery) : PostsOut :=
  let base := (joinRows s).filter (rowMatches q)
  let total := base.length
  let sorted := sortByLE (sortLE q.sortBy) base
  let offset := (q.page - 1) * q.limit
  let rows := (sorted.drop offset).take q.limit
  let posts := rows.map (fun pr =>
    ⟨pr.1, pr.2, (s.post_tags.filter (fun t => t.1 = pr.1.id)).map Prod.snd⟩)
  let totalPages := (total + q.limit - 1) / q.limit
  ⟨posts, q.page, totalPages, total, q.limit, decide (q.page < totalPages), decide (1 < q.page)⟩

/-- Request body of `POST /api/posts` (lines 437-444); `none` models an
absent key, `some []` an empty string. -/
structure CreateReq where
  authorEmail : Option Str
  content : Option Str
  imageSvg : Option Str
  category : Option Str
  reqLocation : Option Str
  tags : Option (List Str)
deriving DecidableEq

/-- Outcome of `POST /api/posts`: HTTP status, the new id on success,
and the store after the handler. -/
structure CreateOut where
  status : Nat
  newId : Option Int
  store : Store
deriving DecidableEq

/-- Model of `POST /api/posts` (app.py lines 432-506).  Validation happens
before the store is touched; an unknown author email returns 404 with
no writes; otherwise the post gets id `MAX(id) + 1` and the request's
tag list is inserted verbatim.  `now` stands for
`datetime.now().strftime('%Y-%m-%d %H:%M:%S')`. -/
def create_post (now : Str) (s : Store) (req : CreateReq) : CreateOut :=
  match req.authorEmail with
  | none => ⟨400, none, s⟩
  | some e =>
    if e = [] then ⟨400, none, s⟩
    else if req.content = none ∨ req.content = some [] then ⟨400, none, s⟩
    else
      match findAuthorId s e with
      | none => ⟨404, none, s⟩
      | some aid =>
        let newId := maxPostId s.posts + 1
        let p : Post :=
          ⟨newId, aid, req.content, some now, 0, 0, 0, 0, .finite 0 0,
           some (req.imageSvg.getD []), some (req.category.getD []), some (req.reqLocation.getD [])⟩
        ⟨201, some newId,
         { s with posts := s.posts ++ [p],
                  post_tags := s.post_tags ++ (req.tags.getD []).map (fun t => (newId, t)) }⟩

/-- Request body of `PUT /api/posts/:id` (lines 540-570): the outer
`Option` is key presence (`'content' in data`), the inner value is the
JSON string or null. -/
structure UpdateReq where
  content : Option (Option Str)
  category : Option (Option Str)
  reqLocation : Option (Option Str)
  imageSvg : Option (Option Str)
  tags : Option (List Str)
deriving DecidableEq

/-- Status plus resulting store, for the update and delete handlers. -/
structure SimpleOut where
  status : Nat
  store : Store
deriving DecidableEq

/-- The dynamic `UPDATE posts SET ...` assignments (lines 537-559)
applied to one post row. -/
def applyUpdates (req : UpdateReq) (p : Post) : Post :=
  let p1 := match req.content with | none => p | some v => { p with text := v }
  let p2 := match req.category with | none => p1 | some v => { p1 with category := v }
  let p3 := match req.reqLocation with | none => p2 | some v => { p2 with location := v }
  match req.imageSvg with | none => p3 | some v => { p3 with image_svg := v }

/-- Model of `PUT /api/posts/:id` (app.py lines 512-578): 404 if the id is
absent; otherwise update the supplied fields, and if `tags` is supplied
delete the post's tags and insert the new list verbatim. -/
def update_post (s : Store) (pid : Int) (req : UpdateReq) : SimpleOut :=
  if (s.posts.find? (fun p => p.id = pid)) = none then ⟨404, s⟩
  else
    let posts1 := s.posts.map (fun p => if p.id = pid then applyUpdates req p else p)
    let pt1 :=
      match req.tags with
      | none => s.post_tags
      | some ts => (s.post_tags.filter (fun pr => ¬ pr.1 = pid)) ++ ts.map (fun t => (pid, t))
    ⟨200, { s with posts := posts1, post_tags := pt1 }⟩

/-- Model of `DELETE /api/posts/:id` (app.py lines 584-611): 404 if absent, else
remove the tags and then the post. -/
def delete_post (s : Store) (pid : Int) : SimpleOut :=
  if (s.posts.find? (fun p => p.id = pid)) = none then ⟨404, s⟩
  else
    ⟨200, { s with posts := s.posts.filter (fun p => ¬ p.id = pid),
                   post_tags := s.post_tags.filter (fun pr => ¬ pr.1 = pid) }⟩

/- ===========================================
   Connection lifecycle of each handler (app.py)
   =========================================== -/

/-- Connection lifecycle of one request: the HTTP status of the reply,
whether `get_db_connection()` was reached, and whether `conn.close()`
ran before the handler returned.  Every handler wraps its whole body in
`try: ... except Exception: return 500`, and no `except` block or
`finally` clause closes the connection. -/
structure HandlerConn where
  status : Nat
  opened : Bool
  closed : Bool
deriving DecidableEq

/-- Lifecycle of `GET /api/stats` (app.py lines 88-135).  `dbFail` injects an
exception in one of the cursor operations of lines 107-123 (between
open and close). -/
def statsConn (dbFail : Bool) : HandlerConn :=
  if dbFail then ⟨500, true, false⟩ else ⟨200, true, true⟩

/-- Lifecycle of `GET /api/categories` (lines 141-166); same shape as the stats
handler. -/
def categoriesConn (dbFail : Bool) : HandlerConn :=
  if dbFail then ⟨500, true, false⟩ else ⟨200, true, true⟩

/-- Lifecycle of `GET /api/posts` (lines 172-358).  `parseFail` models a `ValueError`
from `int(request.args.get('page'))` at lines 195-196, which fires
before the connection is opened; `dbFail` an exception from any query
between the open at line 198 and `conn.close()` at line 340; `zeroLim`
a request with `limit=0`, which runs every query (SQLite accepts
`LIMIT 0`), closes the connection at line 340, and only then raises
`ZeroDivisionError` in the `total_pages` computation at line 343 — a
caught-exception 500 returned with the connection already closed. -/
def postsConn (parseFail dbFail zeroLim : Bool) : HandlerConn :=
  if parseFail then ⟨500, false, false⟩
  else if dbFail then ⟨500, true, false⟩
  else if zeroLim then ⟨500, true, true⟩
  else ⟨200, true, true⟩

/-- Lifecycle of `GET /api/posts/:id` (lines 364-426).  `found` is whether the SELECT
of line 373 returns a row. -/
def postConn (found dbFail : Bool) : HandlerConn :=
  if dbFail then ⟨500, true, false⟩
  else if ¬ found then ⟨404, true, true⟩
  else ⟨200, true, true⟩

/-- Lifecycle of `POST /api/posts` (lines 432-506).  `jsonFail` models
`request.get_json()` raising before the connection is opened;
`noEmail`/`noContent` are the 400 validations of lines 450-453, which
also run before the connection is opened; `found` is the author lookup
of line 459. -/
def createConn (jsonFail noEmail noContent found dbFail : Bool) : HandlerConn :=
  if jsonFail then ⟨500, false, false⟩
  else if noEmail then ⟨400, false, false⟩
  else if noContent then ⟨400, false, false⟩
  else if dbFail then ⟨500, true, false⟩
  else if ¬ found then ⟨404, true, true⟩
  else ⟨201, true, true⟩

/-- Lifecycle of `PUT /api/posts/:id` (lines 512-578). -/
def updateConn (jsonFail found dbFail : Bool) : HandlerConn :=
  if jsonFail then ⟨500, false, false⟩
  else if dbFail then ⟨500, true, false⟩
  else if ¬ found then ⟨404, true, true⟩
  else ⟨200, true, true⟩

/-- Lifecycle of `DELETE /api/posts/:id` (lines 584-611). -/
def deleteConn (found dbFail : Bool) : HandlerConn :=
  if dbFail then ⟨500, true, false⟩
  else if ¬ found then ⟨404, true, true⟩
  else ⟨200, true, true⟩

/-- Lifecycle of `GET /api/authors` (lines 617-649). -/
def authorsConn (dbFail : Bool) : HandlerConn :=
  if dbFail then ⟨500, true, false⟩ else ⟨200, true, true⟩

/-- The property C4 asserts of a single request outcome: if a
connection was opened, it was closed before the reply. -/
abbrev closedIfOpened (h : HandlerConn) : Prop := h.opened = true → h.closed = true

/-- What the handlers actually guarantee: the connection is closed
before the reply, unless the reply is a caught-exception 500 (where
closing is not guaranteed either way) or no connection was opened at
all.  Stated as the classically equivalent disjunction of the
implication `status ≠ 500 → opened → closed`. -/
abbrev ConnOk (h : HandlerConn) : Prop :=
  h.closed = true ∨ h.status = 500 ∨ h.opened = false

/- ===========================================
   Invariants and spec-side definitions for the claims
   =========================================== -/

/-- No two rows of `post_tags` carry the same (post id, tag) pair. -/
abbrev TagPairsNodup (s : Store) : Prop := s.post_tags.Nodup

/-- No duplicate post row (by id), no duplicate author (by email), and
every tag row references an existing post id. -/
abbrev PostsAuthorsInv (s : Store) : Prop :=
  s.posts.Pairwise (fun p q => ¬ p.id = q.id) ∧
  s.authors.Pairwise (fun a b => ¬ a.email = b.email) ∧
  (∀ pr ∈ s.post_tags, ∃ p ∈ s.posts, p.id = pr.1)

/-- The store invariant of claim C3. -/
abbrev StoreInv (s : Store) : Prop := TagPairsNodup s ∧ PostsAuthorsInv s

/-- Is a loaded JSON value a list? (`isinstance(tags, list)`). -/
def PyJson.isArr : PyJson → Bool
  | .arr _ => true
  | _ => false

/-- Deduplication that keeps first occurrences, as the claims describe
the tag-cleaning loop. -/
def dedupKeepFirst (l : List Str) : List Str :=
  l.foldl (fun acc t => if t ∈ acc then acc else acc ++ [t]) []

/-- Claim C6 as stated: true iff the lowercased input is `true`, `1` or
`yes` (no mention of stripping). -/
abbrev ClaimC6Stmt (s : Str) : Prop :=
  clean_boolean (some s) = 1 ↔
    (pyLower s = ("true".data) ∨ pyLower s = ("1".data) ∨ pyLower s = ("yes".data))

/-- Claim C8 as stated: the result is the trimmed input with `%%`
collapsed and the trailing pattern stripped, and only the empty input
maps to null. -/
abbrev ClaimC8Stmt (s : Str) : Prop :=
  clean_text (some s) =
    (if s = [] then none
     else some (pyStrip (stripExtra (replaceDouble '%' (pyStrip s)))))

/- ===========================================
   Concrete fixtures used by witnesses and counterexamples
   =========================================== -/

/-- A CSV row whose tag field is `'["#a","#a","#b"]'` (claim C1's
example), with innocuous values in the other columns. -/
def rowC1 : Row :=
  ⟨("Ann".data), ("Lee".data), ("a@b.com".data), [], [], [], ("0".data), ("true".data),
   ("1".data), ("Hello".data), [], ("0".data), ("0".data), ("0".data), ("0".data), ("0".data),
   ("img".data), ("Tech".data), ("NY".data), ("[\"#a\",\"#a\",\"#b\"]".data)⟩

/-- A store holding exactly one author. -/
def storeOneAuthor : Store :=
  ⟨[⟨1, some ("A".data), some ("B".data), ("a@b.com".data), none, none, none, 0, 0⟩], 2, [], []⟩

/-- A create request for the sole author carrying a duplicated tag. -/
def reqDupTags : CreateReq :=
  ⟨some ("a@b.com".data), some ("hi".data), none, none, none, some [("#a".data), ("#a".data)]⟩

/-- A create request with an unknown author email and no content. -/
def reqNoContent : CreateReq := ⟨some ("ghost@x.com".data), none, none, none, none, none⟩

/-- A create request with an unknown author email and some content. -/
def reqGhost : CreateReq := ⟨some ("ghost@x.com".data), some ("hi".data), none, none, none, none⟩

/-- A minimal post row for the pagination fixture. -/
def mkPlainPost (i : Int) : Post := ⟨i, 1, some ("t".data), none, 0, 0, 0, 0, .finite 0 0, none, none, none⟩

/-- Twenty-five posts by the single author (claim C5's example). -/
def store25 : Store :=
  ⟨storeOneAuthor.authors, 2, (List.range 25).map (fun i => mkPlainPost ((i : Int) + 1)), []⟩

/-- Query `page=3&limit=10` with no filters and the default sort. -/
def pageQ3 : PostsQuery := ⟨[], [], [], [], ("newest".data), 3, 10⟩

/- ===========================================
   Helper lemmas
   =========================================== -/

/-- Conversion `Char.ofNat` is the identity on valid small code points. -/
theorem charToNat_ofNat_small (n : Nat) (h : n < 55296) : (Char.ofNat n).toNat = n := by
  have hv : n.isValidChar := Or.inl h
  simp only [Char.ofNat, hv, dif_pos, Char.ofNatAux, Char.toNat, UInt32.toNat]
  have h32 : n < 4294967296 := by omega
  simp [BitVec.toNat, BitVec.ofNatLt, Nat.mod_eq_of_lt h32]

/-- ASCII lowering is idempotent. -/
theorem toLower_toLower (c : Char) : Char.toLower (Char.toLower c) = Char.toLower c := by
  unfold Char.toLower
  by_cases h : c.toNat ≥ 65 ∧ c.toNat ≤ 90
  · have h2 : (Char.ofNat (c.toNat + 32)).toNat = c.toNat + 32 := charToNat_ofNat_small _ (by omega)
    simp only [if_pos h, h2]
    have hn : ¬ (c.toNat + 32 ≥ 65 ∧ c.toNat + 32 ≤ 90) := by omega
    simp only [if_neg hn]
  · simp [h]

/-- Every character of a lowered string is fixed by lowering. -/
theorem pyLower_fixed_mem (s : Str) : ∀ x ∈ pyLower s, Char.toLower x = x := by
  intro x hx
  rcases List.mem_map.mp hx with ⟨y, _, rfl⟩
  exact toLower_toLower y

/-- A string all of whose characters are fixed by lowering is fixed by
`pyLower`. -/
theorem pyLower_of_fixed (l : Str) (h : ∀ x ∈ l, Char.toLower x = x) : pyLower l = l := by
  induction l with
  | nil => rfl
  | cons a t ih =>
    simp only [pyLower, List.map_cons]
    rw [h a (List.mem_cons_self a t)]
    have := ih (fun x hx => h x (List.mem_cons_of_mem a hx))
    simpa [pyLower] using this

/-- Replacing never lengthens a string. -/
theorem replaceDouble_length_le (ch : Char) (s : Str) :
    (replaceDouble ch s).length ≤ s.length := by
  induction s using replaceDouble.induct ch with
  | case1 => simp [replaceDouble]
  | case2 => simp [replaceDouble]
  | case3 a b rest h ih =>
    simp only [replaceDouble, if_pos h, List.length_cons]
    omega
  | case4 a b rest h ih =>
    simp only [replaceDouble, if_neg h, List.length_cons]
    simpa using ih

/-- While `"@@"`-style doubles remain, `replaceDouble` strictly shrinks
the string (the termination measure of the `while` loop in
`clean_email`). -/
theorem replaceDouble_length_lt (ch : Char) (s : Str) (h : hasSub [ch, ch] s = true) :
    (replaceDouble ch s).length < s.length := by
  induction s using replaceDouble.induct ch with
  | case1 => simp [hasSub, startsWithStr] at h
  | case2 c => simp [hasSub, startsWithStr] at h
  | case3 a b rest hab ih =>
    have hle := replaceDouble_length_le ch rest
    simp only [replaceDouble, if_pos hab, List.length_cons]
    omega
  | case4 a b rest hab ih =>
    simp only [replaceDouble, if_neg hab, List.length_cons]
    have hsub : hasSub [ch, ch] (b :: rest) = true := by
      simp only [hasSub, Bool.or_eq_true] at h ⊢
      rcases h with h | h
      · exfalso
        simp only [startsWithStr, Bool.and_eq_true, decide_eq_true_eq] at h
        apply hab
        rcases h with ⟨h1, h2, _⟩
        simp [h1.symm, h2.symm]
      · exact h
    have := ih hsub
    simp only [List.length_cons] at this
    omega

/-- Characters of `replaceDouble` come from the string or are the
replacement character. -/
theorem mem_replaceDouble (ch : Char) (s : Str) :
    ∀ x ∈ replaceDouble ch s, x ∈ s ∨ x = ch := by
  induction s using replaceDouble.induct ch with
  | case1 => simp [replaceDouble]
  | case2 c => simp [replaceDouble]
  | case3 a b rest hab ih =>
    intro x hx
    simp only [replaceDouble, if_pos hab, List.mem_cons] at hx
    rcases hx with rfl | hx
    · right; rfl
    · rcases ih x hx with h | h
      · left; exact List.mem_cons_of_mem _ (List.mem_cons_of_mem _ h)
      · right; exact h
  | case4 a b rest hab ih =>
    intro x hx
    simp only [replaceDouble, if_neg hab, List.mem_cons] at hx
    rcases hx with rfl | hx
    · left; exact List.mem_cons_self _ _
    · rcases ih x hx with h | h
      · left; exact List.mem_cons_of_mem _ h
      · right; exact h

/-- Replacing keeps a nonempty string nonempty. -/
theorem replaceDouble_ne_nil (ch : Char) (s : Str) (h : ¬ s = []) :
    ¬ replaceDouble ch s = [] := by
  match s with
  | [] => exact absurd rfl h
  | [c] => simp [replaceDouble]
  | a :: b :: rest =>
    by_cases hab : (a = ch && b = ch) = true
    · simp [replaceDouble, hab]
    · simp only [replaceDouble, if_neg hab]
      simp

/-- After the fuelled `@@`-collapsing loop with enough fuel, no `@@`
remains. -/
theorem collapseAts_noSub (n : Nat) : ∀ s : Str, s.length ≤ n →
    hasSub atat (collapseAts n s) = false := by
  induction n with
  | zero =>
    intro s hs
    have : s = [] := List.length_eq_zero.mp (Nat.le_zero.mp hs)
    subst this
    rfl
  | succ n ih =>
    intro s hs
    by_cases h : hasSub atat s = true
    · simp only [collapseAts, if_pos h]
      apply ih
      have := replaceDouble_length_lt '@' s h
      omega
    · simp only [collapseAts, if_neg h]
      exact Bool.not_eq_true _ ▸ (Bool.of_not_eq_true h)

/-- Characters of the collapsed string come from the input or are
`'@'`. -/
theorem mem_collapseAts (n : Nat) : ∀ s : Str, ∀ x ∈ collapseAts n s, x ∈ s ∨ x = '@' := by
  induction n with
  | zero => intro s x hx; left; simpa [collapseAts] using hx
  | succ n ih =>
    intro s x hx
    by_cases h : hasSub atat s = true
    · simp only [collapseAts, if_pos h] at hx
      rcases ih _ x hx with h2 | h2
      · rcases mem_replaceDouble '@' s x h2 with h3 | h3
        · left; exact h3
        · right; exact h3
      · right; exact h2
    · simp only [collapseAts, if_neg h] at hx
      left; exact hx

/-- The collapsed string stays nonempty. -/
theorem collapseAts_ne_nil (n : Nat) : ∀ s : Str, ¬ s = [] → ¬ collapseAts n s = [] := by
  induction n with
  | zero => intro s h; simpa [collapseAts] using h
  | succ n ih =>
    intro s h
    by_cases hh : hasSub atat s = true
    · simp only [collapseAts, if_pos hh]
      exact ih _ (replaceDouble_ne_nil '@' s h)
    · simpa [collapseAts, hh] using h

/-- The tag-insertion loop only appends pairs tagged with the current
post id. -/
theorem insertTags_mem (pid : Int) (ts : List Str) :
    ∀ pt tc dup seen, ∀ pr ∈ (insertTags pid pt tc dup seen ts).1, pr ∈ pt ∨ pr.1 = pid := by
  induction ts with
  | nil => intro pt tc dup seen pr hpr; left; simpa [insertTags] using hpr
  | cons t ts ih =>
    intro pt tc dup seen pr hpr
    by_cases hm : t ∈ seen
    · simp only [insertTags, if_neg (not_not_intro hm)] at hpr
      exact ih pt tc (dup + 1) seen pr hpr
    · simp only [insertTags, if_pos hm] at hpr
      rcases ih (pt ++ [(pid, t)]) (tc + 1) dup (t :: seen) pr hpr with h | h
      · rcases List.mem_append.mp h with h2 | h2
        · left; exact h2
        · right
          have : pr = (pid, t) := by simpa using h2
          rw [this]
      · right; exact h

/-- The tag-insertion loop keeps `post_tags` duplicate-free, provided
every pair already present for this post id is recorded in `seen`. -/
theorem insertTags_nodup (pid : Int) (ts : List Str) :
    ∀ pt tc dup seen, pt.Nodup → (∀ t, (pid, t) ∈ pt → t ∈ seen) →
      (insertTags pid pt tc dup seen ts).1.Nodup := by
  induction ts with
  | nil => intro pt tc dup seen hnd _; simpa [insertTags] using hnd
  | cons t ts ih =>
    intro pt tc dup seen hnd hseen
    by_cases hm : t ∈ seen
    · simp only [insertTags, if_neg (not_not_intro hm)]
      exact ih pt tc (dup + 1) seen hnd hseen
    · simp only [insertTags, if_pos hm]
      apply ih
      · refine List.nodup_append.mpr ⟨hnd, by simp, ?_⟩
        intro pr hpr hpr2
        have : pr = (pid, t) := by simpa using hpr2
        subst this
        exact hm (hseen t hpr)
      · intro u hu
        rcases List.mem_append.mp hu with h2 | h2
        · exact List.mem_cons_of_mem _ (hseen u h2)
        · have : u = t := by
            have := (by simpa using h2 : (pid, u) = (pid, t))
            simpa using this
          subst this
          exact List.mem_cons_self _ _

/-- Inserting with `insertLE` adds exactly one element. -/
theorem insertLE_length (le : α → α → Bool) (x : α) (l : List α) :
    (insertLE le x l).length = l.length + 1 := by
  induction l with
  | nil => rfl
  | cons y ys ih =>
    by_cases h : le x y = true
    · simp [insertLE, h]
    · simp [insertLE, h, ih]

/-- The stable sort is a permutation in particular in length. -/
theorem sortByLE_length (le : α → α → Bool) (l : List α) :
    (sortByLE le l).length = l.length := by
  induction l with
  | nil => rfl
  | cons x xs ih => simp [sortByLE, insertLE_length, ih]

/-- The running maximum dominates its seed. -/
theorem maxPostIdAux_seed_le (ps : List Post) : ∀ m : Int, m ≤ maxPostIdAux m ps := by
  induction ps with
  | nil => intro m; simp [maxPostIdAux]
  | cons p ps ih =>
    intro m
    calc m ≤ max m p.id := le_max_left _ _
    _ ≤ maxPostIdAux (max m p.id) ps := ih _
    _ = maxPostIdAux m (p :: ps) := rfl

/-- The running maximum dominates every listed id. -/
theorem maxPostIdAux_mem_le (ps : List Post) :
    ∀ m : Int, ∀ p ∈ ps, p.id ≤ maxPostIdAux m ps := by
  induction ps with
  | nil => intro m p hp; simp at hp
  | cons q ps ih =>
    intro m p hp
    rcases List.mem_cons.mp hp with rfl | hp
    · calc p.id ≤ max m p.id := le_max_right _ _
      _ ≤ maxPostIdAux (max m p.id) ps := maxPostIdAux_seed_le ps _
      _ = maxPostIdAux m (p :: ps) := rfl
    · exact ih (max m q.id) p hp

/-- The maximum `MAX(id)` dominates every post id. -/
theorem maxPostId_mem_le (ps : List Post) : ∀ p ∈ ps, p.id ≤ maxPostId ps := by
  intro p hp
  match ps, hp with
  | q :: ps, hp =>
    rcases List.mem_cons.mp hp with rfl | hp
    · exact maxPostIdAux_seed_le ps p.id
    · exact maxPostIdAux_mem_le ps q.id p hp

/-- Ceiling division, lower bound: `N ≤ ((N + L - 1) / L) * L`. -/
theorem ceilDiv_mul_ge (N L : Nat) (hL : 1 ≤ L) : N ≤ ((N + L - 1) / L) * L := by
  have h := (Nat.div_le_iff_le_mul_add_pred hL).mp (Nat.le_refl ((N + L - 1) / L))
  have hc : L * ((N + L - 1) / L) = ((N + L - 1) / L) * L := Nat.mul_comm _ _
  omega

/-- Ceiling division, minimality: any page count covering all rows is at
least `(N + L - 1) / L`. -/
theorem ceilDiv_le_of_mul_ge (N L m : Nat) (hL : 1 ≤ L) (h : N ≤ m * L) :
    (N + L - 1) / L ≤ m := by
  apply (Nat.div_le_iff_le_mul_add_pred hL).mpr
  have hc : L * m = m * L := Nat.mul_comm _ _
  omega

/-- Field updates of the update handler do not change a post's id. -/
theorem applyUpdates_id (req : UpdateReq) (p : Post) : (applyUpdates req p).id = p.id := by
  unfold applyUpdates
  rcases req.content with _ | v <;> rcases req.category with _ | w <;>
    rcases req.reqLocation with _ | x <;> rcases req.imageSvg with _ | y <;> rfl

/-- The tag-cleaning loop of `parse_tags` equals map-strip, drop-empty,
then first-occurrence deduplication. -/
theorem cleanedTagsLoop_spec (l : List PyJson) :
    ∀ acc, cleanedTagsLoop acc l =
      ((l.map (fun t => pyStrip (pyStr t))).filter (fun t => ¬ t = [])).foldl
        (fun acc t => if t ∈ acc then acc else acc ++ [t]) acc := by
  induction l with
  | nil => intro acc; rfl
  | cons t ts ih =>
    intro acc
    simp only [cleanedTagsLoop, List.map_cons, List.filter_cons]
    by_cases h0 : pyStrip (pyStr t) = []
    · simp [h0, ih]
    · by_cases hmem : pyStrip (pyStr t) ∈ acc
      · simp [h0, hmem, ih]
      · simp [h0, hmem, ih]

/- ===========================================
   Claim theorems
   =========================================== -/

/-- Claim C1 (code bug).  Importing the row whose tag field is
`'["#a","#a","#b"]'` stores exactly the tags `#a`, `#b` for post 1 and
creates 2 tag rows — but the per-defect `duplicate_tags` tally is 0,
not the claimed 1: `parse_tags` already deduplicates, so the importer's
counting branch (data_processing.py line 476) can never run. -/
theorem c1_duplicate_tag_tally :
    (importRow initImportState rowC1).map
        (fun st => (st.store.post_tags, st.stats.issues_fixed.duplicate_tags, st.stats.tags_created))
      = .ok ([(1, ("#a".data)), (1, ("#b".data))], 0, 2) := by decide

/-- Claim C2 (code bug).  `clean_integer` raises `OverflowError` on
`"inf"`, `"-inf"` and `"Infinity"` (`int(float('inf'))` is not caught
by `except (ValueError, TypeError)`), contradicting "never raises an
exception"; the other failure modes do degrade to the defaults. -/
theorem c2_clean_integer_inf_raises :
    clean_integer (some ("inf".data)) = .error .overflowErr ∧
    clean_integer (some ("-inf".data)) = .error .overflowErr ∧
    clean_integer (some ("Infinity".data)) = .error .overflowErr ∧
    clean_integer (some ("nan".data)) = .ok 0 ∧
    clean_integer (some ("garbage".data)) = .ok 0 ∧
    clean_float (some ("inf".data)) = .inf ∧
    clean_float (some ("garbage".data)) = .finite 0 0 := by decide

/-- Claim C3, counterexample.  The (post id, tag)-pair invariant holds
of a store with one author and no posts, but fails after `create_post`
with the duplicated tag list `["#a", "#a"]`: the handler inserts the
request's tags verbatim (app.py lines 490-495). -/
theorem c3_counterexample :
    StoreInv storeOneAuthor ∧ ¬ StoreInv (create_post [] storeOneAuthor reqDupTags).store := by
  decide

/-- Claim C4, counterexample.  When a database operation inside
`GET /api/stats` raises, the handler replies 500 from its `except`
block with the connection opened at line 106 still unclosed — there is
no `finally`/context manager in app.py. -/
theorem c4_counterexample :
    (statsConn true).status = 500 ∧ (statsConn true).opened = true ∧
    (statsConn true).closed = false := by decide

/-- Claim C4, amended.  Every handler closes its connection before
replying on success and 4xx paths (when one was opened at all), but on
caught-exception 500 paths closing is not guaranteed either way: a
failing query leaves `GET /api/stats` replying 500 with the connection
still open, while `GET /api/posts?limit=0` raises `ZeroDivisionError`
only after `conn.close()` and replies 500 with the connection already
closed. -/
theorem c4_amended :
    (∀ a b c d e f : Bool,
      ConnOk (statsConn a) ∧ ConnOk (categoriesConn a) ∧ ConnOk (postsConn a b f) ∧
      ConnOk (postConn a b) ∧ ConnOk (createConn a b c d e) ∧ ConnOk (updateConn a b c) ∧
      ConnOk (deleteConn a b) ∧ ConnOk (authorsConn a)) ∧
    ((statsConn true).status = 500 ∧ (statsConn true).opened = true ∧
      (statsConn true).closed = false) ∧
    ((postsConn false false true).status = 500 ∧ (postsConn false false true).opened = true ∧
      (postsConn false false true).closed = true) := by
  refine ⟨?_, by decide, by decide⟩
  intro a b c d e f
  cases a <;> cases b <;> cases c <;> cases d <;> cases e <;> cases f <;> decide

/-- Claim C6, counterexample.  `clean_boolean(" true")` is 1, yet the
lowercased input `" true"` is not one of `true`/`1`/`yes`: the code
strips before comparing, which the claim's iff omits. -/
theorem c6_counterexample :
    clean_boolean (some ((" true").data)) = 1 ∧ ¬ ClaimC6Stmt ((" true").data) := by
  constructor
  · decide
  · intro h
    have := h.mp (by decide)
    revert this
    decide

/-- Claim C6, amended: `clean_boolean` returns 1 exactly when the
stripped-then-lowercased input is `true`, `1` or `yes`, and 0 in every
other case (including `None`). -/
theorem c6_amended :
    clean_boolean none = 0 ∧
    ∀ s : Str,
      (clean_boolean (some s) = 1 ↔
        (pyLower (pyStrip s) = ("true".data) ∨ pyLower (pyStrip s) = ("1".data) ∨
         pyLower (pyStrip s) = ("yes".data))) ∧
      (clean_boolean (some s) = 0 ↔
        ¬ (pyLower (pyStrip s) = ("true".data) ∨ pyLower (pyStrip s) = ("1".data) ∨
           pyLower (pyStrip s) = ("yes".data))) := by
  refine ⟨rfl, fun s => ?_⟩
  unfold clean_boolean
  by_cases h : (pyLower (pyStrip s) = ("true".data) ∨ pyLower (pyStrip s) = ("1".data) ∨
      pyLower (pyStrip s) = ("yes".data))
  · simp [h]
  · simp [h]

/-- Claim C7, counterexample.  The whitespace-only input `" "` is a
nonempty string, yet `clean_email` returns null for it (the stripped
string is empty), so not every input string yields a lowercased
`@@`-free string. -/
theorem c7_counterexample :
    ¬ ((" ").data : Str) = [] ∧ clean_email (some ((" ").data)) = none := by decide

/-- Claim C7, amended.  The collapse loop strictly shrinks the string
while `@@` remains (so it terminates); inputs whose stripped form is
empty (including the empty string) return null; every other input
returns a lowercased string with no `@@` occurrence, even when
collapsing creates new adjacent pairs; and the claim's examples hold. -/
theorem c7_amended :
    (∀ s : Str, hasSub atat s = true → (replaceDouble '@' s).length < s.length) ∧
    (∀ s : Str, pyStrip s = [] → clean_email (some s) = none) ∧
    (∀ s : Str, ¬ pyStrip s = [] →
      ∃ t, clean_email (some s) = some t ∧ hasSub atat t = false ∧ pyLower t = t) ∧
    clean_email (some ("John@@Example.com".data)) = some (("john@example.com").data) ∧
    clean_email (some (("a@@@@b").data)) = some (("a@b").data) ∧
    clean_email none = none := by
  refine ⟨fun s h => replaceDouble_length_lt '@' s h, fun s h => ?_, fun s h => ?_,
    by decide, by decide, rfl⟩
  · unfold clean_email
    by_cases hs : s = []
    · simp [hs]
    · simp only [if_neg hs, h]
      simp [pyLower, collapseAts]
  · have hs : ¬ s = [] := fun hh => h (by simp [hh, pyStrip])
    have he0ne : ¬ pyLower (pyStrip s) = [] := by
      simp only [pyLower]
      simpa using h
    have h1 : ¬ collapseAts (pyLower (pyStrip s)).length (pyLower (pyStrip s)) = [] :=
      collapseAts_ne_nil _ _ he0ne
    refine ⟨collapseAts (pyLower (pyStrip s)).length (pyLower (pyStrip s)), ?_, ?_, ?_⟩
    · unfold clean_email
      simp [hs, h1]
    · exact collapseAts_noSub _ _ (Nat.le_refl _)
    · apply pyLower_of_fixed
      intro x hx
      rcases mem_collapseAts _ _ x hx with h2 | h2
      · exact pyLower_fixed_mem _ x h2
      · subst h2; decide

/-- Witness for the amended C7 theorem at a concrete input with an
uppercase letter and a doubled `@`. -/
theorem c7_amended_witness :
    ∃ t, clean_email (some (("x@@Y").data)) = some t ∧ hasSub atat t = false ∧ pyLower t = t :=
  c7_amended.2.2.1 (("x@@Y").data) (by decide)

/-- Claim C8, counterexample.  The whitespace-only input `" "` is
nonempty, so the claim promises the cleaned string `""`, but
`clean_text` returns null for it. -/
theorem c8_counterexample : ¬ ClaimC8Stmt ((" ").data) := by
  intro h
  revert h
  unfold ClaimC8Stmt
  decide

/-- Claim C8, amended: `clean_text` is trim, then `%%`→`%`, then
stripping the trailing `", extra, commas"` pattern, then a final trim —
returning null when the input is empty or when the cleaned text
becomes empty; the claim's example holds. -/
theorem c8_amended :
    (∀ s : Str,
      clean_text (some s) =
        (if s = [] ∨ stripExtra (replaceDouble '%' (pyStrip s)) = [] then none
         else some (pyStrip (stripExtra (replaceDouble '%' (pyStrip s)))))) ∧
    clean_text (some ("40%% off, extra, commas".data)) = some (("40% off").data) ∧
    clean_text none = none := by
  refine ⟨fun s => ?_, by decide, rfl⟩
  by_cases hs : s = []
  · simp [clean_text, hs]
  · by_cases h3 : stripExtra (replaceDouble '%' (pyStrip s)) = []
    · simp [clean_text, hs, h3]
    · simp [clean_text, hs, h3]

/-- Claim C9, counterexample.  A create request whose author email is
unknown but whose content is missing gets 400 (content validation runs
before the author lookup), not the claimed 404 — though the store is
indeed untouched. -/
theorem c9_counterexample :
    (∀ a ∈ storeOneAuthor.authors, ¬ a.email = ("ghost@x.com".data)) ∧
    (create_post [] storeOneAuthor reqNoContent).status = 400 ∧
    ¬ (create_post [] storeOneAuthor reqNoContent).status = 404 ∧
    (create_post [] storeOneAuthor reqNoContent).store = storeOneAuthor := by decide

/-- Claim C9, amended.  For every create request that passes field
validation (non-empty author email and non-empty content) and whose
author email matches no stored author, the handler replies 404 and the
store is exactly unchanged. -/
theorem c9_amended (s : Store) (req : CreateReq) (now e : Str)
    (he : req.authorEmail = some e) (hne : ¬ e = [])
    (hc : ¬ (req.content = none ∨ req.content = some []))
    (hu : ∀ a ∈ s.authors, ¬ a.email = e) :
    create_post now s req = ⟨404, none, s⟩ := by
  have hfind : findAuthorId s e = none := by
    unfold findAuthorId
    rw [List.find?_eq_none.mpr]
    · rfl
    · intro a ha
      simpa using hu a ha
  unfold create_post
  rw [he]
  simp [hne, hc, hfind]

/-- Witness for the amended C9 theorem: the concrete unknown-author
request on the one-author store gets 404 and leaves the store as it
was. -/
theorem c9_amended_witness :
    create_post [] storeOneAuthor reqGhost = ⟨404, none, storeOneAuthor⟩ :=
  c9_amended storeOneAuthor reqGhost [] (("ghost@x.com").data)
    (by decide) (by decide) (by decide) (by decide)

/-- Claim C10 (confirmed).  `parse_tags` returns `[]` whenever
`json.loads` fails, and equally when it yields a non-list value; on a
list it maps each element through `str` and `strip`, drops
empty-after-trim elements, and deduplicates keeping first
occurrences. -/
theorem c10_parse_tags :
    (∀ s : Str, pyJsonLoads s = none → parse_tags (some s) = []) ∧
    (∀ v : PyJson, v.isArr = false → parseTagsVal v = []) ∧
    (∀ l : List PyJson, parseTagsVal (.arr l) =
      dedupKeepFirst ((l.map (fun t => pyStrip (pyStr t))).filter (fun t => ¬ t = []))) := by
  refine ⟨fun s h => ?_, fun v h => ?_, fun l => ?_⟩
  · unfold parse_tags
    by_cases hs : s = []
    · simp [hs]
    · simp [hs, h]
  · cases v <;> simp_all [PyJson.isArr, parseTagsVal]
  · unfold parseTagsVal dedupKeepFirst
    exact cleanedTagsLoop_spec l []

/-- Witness for C10 at concrete inputs: invalid JSON and a JSON number
both yield the empty tag list. -/
theorem c10_parse_tags_witness :
    parse_tags (some (("not json").data)) = [] ∧ parseTagsVal (.int 123) = [] :=
  ⟨c10_parse_tags.1 (("not json").data) (by rfl), c10_parse_tags.2.1 (.int 123) (by rfl)⟩

/-- Claim C5 (confirmed).  For any store and query with page size at
least 1: `totalPages` is the least page count covering all filtered
rows (ceiling division), `hasNext` holds iff the requested page is
below `totalPages`, `hasPrev` iff the page exceeds 1, and the page
contains `min limit (total - (page-1)*limit)` posts — in particular 5
posts for 25 rows at `page=3&limit=10`. -/
theorem c5_pagination (s : Store) (q : PostsQuery) (hl : 1 ≤ q.limit) :
    ((get_posts s q).totalPosts ≤ (get_posts s q).totalPages * q.limit ∧
      ∀ m : Nat, (get_posts s q).totalPosts ≤ m * q.limit → (get_posts s q).totalPages ≤ m) ∧
    ((get_posts s q).hasNext = true ↔ q.page < (get_posts s q).totalPages) ∧
    ((get_posts s q).hasPrev = true ↔ 1 < q.page) ∧
    (get_posts s q).posts.length =
      min q.limit ((get_posts s q).totalPosts - (q.page - 1) * q.limit) := by
  simp only [get_posts]
  refine ⟨⟨ceilDiv_mul_ge _ _ hl, fun m hm => ceilDiv_le_of_mul_ge _ _ m hl hm⟩, ?_, ?_, ?_⟩
  · simp
  · simp
  · rw [List.length_map, List.length_take, List.length_drop, sortByLE_length]

/-- Witness for C5 on the 25-post fixture at `page=3&limit=10`: exactly
5 posts are returned. -/
theorem c5_pagination_witness : (get_posts store25 pageQ3).posts.length = 5 := by
  have h := (c5_pagination store25 pageQ3 (by decide)).2.2.2
  rw [h]
  decide

/-- An empty author lookup means no stored author carries the email. -/
theorem findAuthorId_none_iff (s : Store) (e : Str) :
    findAuthorId s e = none ↔ ∀ a ∈ s.authors, ¬ a.email = e := by
  unfold findAuthorId
  rw [Option.map_eq_none', List.find?_eq_none]
  simp

/-- The author step either leaves the store unchanged or appends one
author whose email no stored author carries. -/
theorem authorStep_cases (store : Store) (cache : List (Str × Nat)) (stats : Stats)
    (email fn ln co jt bi : Option Str) (fc : Int) (v : Nat) :
    (authorStep store cache stats email fn ln co jt bi fc v).1 = store ∨
    ∃ e, email = some e ∧ (∀ b ∈ store.authors, ¬ b.email = e) ∧
      (authorStep store cache stats email fn ln co jt bi fc v).1 =
        { store with
          authors := store.authors ++ [⟨store.nextAuthorId, fn, ln, e, co, jt, bi, fc, v⟩],
          nextAuthorId := store.nextAuthorId + 1 } := by
  simp only [authorStep]
  split
  · left; rfl
  · rename_i e
    split
    · left; rfl
    · split <;>
      · by_cases hcond : findAuthorId store e = none ∧ ¬ fn = none ∧ ¬ ln = none
        · right
          exact ⟨e, rfl, (findAuthorId_none_iff store e).mp hcond.1, by simp [if_pos hcond]⟩
        · left
          simp [if_neg hcond]

/-- The author step never touches `posts` or `post_tags`. -/
theorem authorStep_tags (store : Store) (cache : List (Str × Nat)) (stats : Stats)
    (email fn ln co jt bi : Option Str) (fc : Int) (v : Nat) :
    (authorStep store cache stats email fn ln co jt bi fc v).1.post_tags = store.post_tags := by
  rcases authorStep_cases store cache stats email fn ln co jt bi fc v with heq | ⟨e, _, _, heq⟩ <;>
    rw [heq]

/-- The author step preserves the posts/authors part of the store
invariant unconditionally. -/
theorem authorStep_pa (store : Store) (cache : List (Str × Nat)) (stats : Stats)
    (email fn ln co jt bi : Option Str) (fc : Int) (v : Nat)
    (h : PostsAuthorsInv store) :
    PostsAuthorsInv (authorStep store cache stats email fn ln co jt bi fc v).1 := by
  rcases authorStep_cases store cache stats email fn ln co jt bi fc v with heq | ⟨e, _, hfresh, heq⟩
  · rw [heq]; exact h
  · rw [heq]
    obtain ⟨hp, ha, hc⟩ := h
    refine ⟨hp, ?_, hc⟩
    refine List.pairwise_append.mpr ⟨ha, List.pairwise_singleton _ _, ?_⟩
    intro b hb c hcmem
    have hce : c = ⟨store.nextAuthorId, fn, ln, e, co, jt, bi, fc, v⟩ := by simpa using hcmem
    subst hce
    simpa using hfresh b hb

/-- The replace-and-tag step preserves the posts/authors invariant
unconditionally. -/
theorem postTagStep_pa (store : Store) (stats : Stats) (p : Post) (tags : List Str)
    (h : PostsAuthorsInv store) : PostsAuthorsInv (postTagStep store stats p tags).1 := by
  obtain ⟨hposts, hauth, hclo⟩ := h
  refine ⟨?_, ?_, ?_⟩
  · simp only [postTagStep]
    refine List.pairwise_append.mpr ⟨hposts.filter _, List.pairwise_singleton _ _, ?_⟩
    intro q hq b hb
    have hb2 : b = p := by simpa using hb
    subst hb2
    have hm := List.mem_filter.mp hq
    simpa using hm.2
  · simpa only [postTagStep] using hauth
  · simp only [postTagStep]
    intro pr hpr
    rcases insertTags_mem p.id tags _ _ _ _ pr hpr with hold | hpid
    · rcases hclo pr hold with ⟨q, hq, hqid⟩
      by_cases hqp : q.id = p.id
      · exact ⟨p, by simp, by rw [← hqid, hqp]⟩
      · exact ⟨q, by simp [List.mem_filter, hq, hqp], hqid⟩
    · exact ⟨p, by simp, hpid.symm⟩

/-- The replace-and-tag step preserves the whole invariant when the
incoming row's post id has no tags stored yet. -/
theorem postTagStep_inv (store : Store) (stats : Stats) (p : Post) (tags : List Str)
    (h : StoreInv store) (hdisj : ∀ t, ¬ (p.id, t) ∈ store.post_tags) :
    StoreInv (postTagStep store stats p tags).1 := by
  refine ⟨?_, postTagStep_pa store stats p tags h.2⟩
  simp only [postTagStep, TagPairsNodup]
  exact insertTags_nodup p.id tags _ _ _ _ h.1 (fun t ht => absurd ht (hdisj t))

/-- The row body preserves the posts/authors invariant with no side
condition (re-imports included). -/
theorem importRowCore_pa (st : ImportState) (row : Row) (fc pid lk cm sh te : Int)
    (h : PostsAuthorsInv st.store) :
    PostsAuthorsInv (importRowCore st row fc pid lk cm sh te).store := by
  simp only [importRowCore]
  split
  · exact authorStep_pa _ _ _ _ _ _ _ _ _ _ _ h
  · exact postTagStep_pa _ _ _ _ (authorStep_pa _ _ _ _ _ _ _ _ _ _ _ h)

/-- The row body preserves the whole invariant when the row's post id
brings no tag already stored for it. -/
theorem importRowCore_inv (st : ImportState) (row : Row) (fc pid lk cm sh te : Int)
    (h : StoreInv st.store) (hdisj : ∀ t, ¬ (pid, t) ∈ st.store.post_tags) :
    StoreInv (importRowCore st row fc pid lk cm sh te).store := by
  simp only [importRowCore]
  split
  · refine ⟨?_, authorStep_pa _ _ _ _ _ _ _ _ _ _ _ h.2⟩
    show (authorStep _ _ _ _ _ _ _ _ _ _ _).1.post_tags.Nodup
    rw [authorStep_tags]
    exact h.1
  · refine postTagStep_inv _ _ _ _ ⟨?_, authorStep_pa _ _ _ _ _ _ _ _ _ _ _ h.2⟩ ?_
    · show (authorStep _ _ _ _ _ _ _ _ _ _ _).1.post_tags.Nodup
      rw [authorStep_tags]
      exact h.1
    · intro t
      rw [authorStep_tags]
      exact hdisj t

/-- A successful `importRow` is an `importRowCore` application on the
six cleaned integer fields. -/
theorem importRow_ok_elim (st : ImportState) (row : Row) (st' : ImportState)
    (h : importRow st row = .ok st') :
    ∃ fc pid lk cm sh te, clean_integer (some row.post_id) = .ok pid ∧
      st' = importRowCore st row fc pid lk cm sh te := by
  unfold importRow at h
  split at h
  · exact Except.noConfusion h
  · split at h
    · exact Except.noConfusion h
    · rename_i pid2 hpid2
      split at h
      · exact Except.noConfusion h
      · split at h
        · exact Except.noConfusion h
        · split at h
          · exact Except.noConfusion h
          · split at h
            · exact Except.noConfusion h
            · injection h with h
              exact ⟨_, _, _, _, _, _, hpid2, h.symm⟩

/-- Creation via `POST /api/posts` preserves the invariant when the request's tag
list is duplicate-free: the new post id `MAX(id)+1` is fresh, so the
verbatim-inserted pairs cannot collide with stored ones. -/
theorem create_post_inv (now : Str) (s : Store) (req : CreateReq)
    (h : StoreInv s) (hnd : (req.tags.getD []).Nodup) :
    StoreInv (create_post now s req).store := by
  unfold create_post
  split
  · exact h
  · rename_i e
    split
    · exact h
    · split
      · exact h
      · split
        · exact h
        · rename_i aid heq
          obtain ⟨h1, h2, h3, h4⟩ := h
          have hfresh : ∀ q ∈ s.posts, q.id < maxPostId s.posts + 1 := by
            intro q hq
            have := maxPostId_mem_le s.posts q hq
            omega
          have htagfresh : ∀ pr ∈ s.post_tags, ¬ pr.1 = maxPostId s.posts + 1 := by
            intro pr hpr
            rcases h4 pr hpr with ⟨q, hq, hqid⟩
            have := hfresh q hq
            omega
          refine ⟨?_, ?_, h3, ?_⟩
          · refine List.nodup_append.mpr ⟨h1, ?_, ?_⟩
            · refine List.Nodup.map ?_ hnd
              intro a b hab
              simpa using hab
            · intro pr hpr hpr2
              rcases List.mem_map.mp hpr2 with ⟨t, _, rfl⟩
              exact htagfresh _ hpr rfl
          · refine List.pairwise_append.mpr ⟨h2, List.pairwise_singleton _ _, ?_⟩
            intro q hq b hb
            have hb2 := List.mem_singleton.mp hb
            subst hb2
            intro hcontra
            have h5 : q.id = maxPostId s.posts + 1 := hcontra
            have := hfresh q hq
            omega
          · intro pr hpr
            rcases List.mem_append.mp hpr with hold | hnew
            · rcases h4 pr hold with ⟨q, hq, hqid⟩
              exact ⟨q, List.mem_append_left _ hq, hqid⟩
            · rcases List.mem_map.mp hnew with ⟨t, _, rfl⟩
              exact ⟨_, List.mem_append_right _ (List.mem_singleton.mpr rfl), rfl⟩

/-- Update via `PUT /api/posts/:id` preserves the invariant when any supplied tag
list is duplicate-free: the old tags of the post are deleted first and
field updates keep post ids intact. -/
theorem update_post_inv (s : Store) (pid : Int) (req : UpdateReq)
    (h : StoreInv s) (hnd : ∀ l, req.tags = some l → l.Nodup) :
    StoreInv (update_post s pid req).store := by
  unfold update_post
  split
  · exact h
  · rename_i hfind
    obtain ⟨h1, h2, h3, h4⟩ := h
    have hid : ∀ p : Post, (if p.id = pid then applyUpdates req p else p).id = p.id := by
      intro p
      by_cases hp : p.id = pid
      · simp [hp, applyUpdates_id]
      · simp [hp]
    have hmap : ∀ q ∈ s.posts,
        (fun p => if p.id = pid then applyUpdates req p else p) q ∈
          s.posts.map (fun p => if p.id = pid then applyUpdates req p else p) :=
      fun q hq => List.mem_map_of_mem _ hq
    have hpairs : (s.posts.map (fun p => if p.id = pid then applyUpdates req p else p)).Pairwise
        (fun p q => ¬ p.id = q.id) := by
      refine List.pairwise_map.mpr (h2.imp ?_)
      intro a b hab
      rw [hid, hid]
      exact hab
    have hclo : ∀ pr ∈ s.post_tags,
        ∃ q ∈ s.posts.map (fun p => if p.id = pid then applyUpdates req p else p), q.id = pr.1 := by
      intro pr hpr
      rcases h4 pr hpr with ⟨q, hq, hqid⟩
      exact ⟨_, hmap q hq, by rw [hid]; exact hqid⟩
    refine ⟨?_, hpairs, h3, ?_⟩
    · split
      · exact h1
      · rename_i ts hts
        refine List.nodup_append.mpr ⟨h1.filter _, ?_, ?_⟩
        · refine List.Nodup.map ?_ (hnd ts hts)
          intro a b hab
          simpa using hab
        · intro pr hpr hpr2
          have hne := List.mem_filter.mp hpr
          rcases List.mem_map.mp hpr2 with ⟨t, _, rfl⟩
          simpa using hne.2
    · split
      · exact hclo
      · rename_i ts hts
        intro pr hpr
        rcases List.mem_append.mp hpr with hold | hnew
        · exact hclo pr (List.mem_filter.mp hold).1
        · rcases List.mem_map.mp hnew with ⟨t, _, rfl⟩
          rcases Option.ne_none_iff_exists'.mp hfind with ⟨q0, hq0⟩
          have hq0mem := List.mem_of_find?_eq_some hq0
          have hq0id : q0.id = pid := by simpa using List.find?_some hq0
          exact ⟨_, hmap q0 hq0mem, by rw [hid]; exact hq0id⟩

/-- Deletion via `DELETE /api/posts/:id` preserves the invariant: it filters both
tables. -/
theorem delete_post_inv (s : Store) (pid : Int) (h : StoreInv s) :
    StoreInv (delete_post s pid).store := by
  unfold delete_post
  split
  · exact h
  · obtain ⟨h1, h2, h3, h4⟩ := h
    refine ⟨h1.filter _, h2.filter _, h3, ?_⟩
    intro pr hpr
    have hm := List.mem_filter.mp hpr
    rcases h4 pr hm.1 with ⟨q, hq, hqid⟩
    refine ⟨q, List.mem_filter.mpr ⟨hq, ?_⟩, hqid⟩
    have hne : ¬ pr.1 = pid := by simpa using hm.2
    simpa [hqid] using hne

/-- Claim C3, amended.  The empty store satisfies the pair invariant;
importing a row preserves it provided the row's post id brings no tag
already stored for that id (in particular any row with a fresh post
id); re-importing preserves the no-duplicate-post-row and
no-duplicate-author properties unconditionally; and the create, update
and delete handlers preserve the invariant provided the tag lists they
receive are duplicate-free (they insert them verbatim). -/
theorem c3_amended :
    StoreInv emptyStore ∧
    (∀ st row st' pid, StoreInv st.store → importRow st row = .ok st' →
      clean_integer (some row.post_id) = .ok pid →
      (∀ t, ¬ (pid, t) ∈ st.store.post_tags) → StoreInv st'.store) ∧
    (∀ st row st', PostsAuthorsInv st.store → importRow st row = .ok st' →
      PostsAuthorsInv st'.store) ∧
    (∀ now s req, StoreInv s → (req.tags.getD []).Nodup →
      StoreInv (create_post now s req).store) ∧
    (∀ s pid req, StoreInv s → (∀ l, req.tags = some l → l.Nodup) →
      StoreInv (update_post s pid req).store) ∧
    (∀ s pid, StoreInv s → StoreInv (delete_post s pid).store) := by
  refine ⟨by decide, ?_, ?_, fun now s req h hnd => create_post_inv now s req h hnd,
    fun s pid req h hnd => update_post_inv s pid req h hnd,
    fun s pid h => delete_post_inv s pid h⟩
  · intro st row st' pid hInv h hpid hdisj
    rcases importRow_ok_elim st row st' h with ⟨fc, pid2, lk, cm, sh, te, hpid2, rfl⟩
    rw [hpid] at hpid2
    injection hpid2 with h2
    subst h2
    exact importRowCore_inv st row fc pid lk cm sh te hInv hdisj
  · intro st row st' hpa h
    rcases importRow_ok_elim st row st' h with ⟨fc, pid2, lk, cm, sh, te, _, rfl⟩
    exact importRowCore_pa st row fc pid2 lk cm sh te hpa

/-- Witness for the amended C3 theorem: importing the `rowC1` fixture
into the fresh store (whose tag table is empty) yields a store
satisfying the invariant. -/
theorem c3_amended_witness :
    StoreInv (importRowCore initImportState rowC1 0 1 0 0 0 0).store :=
  c3_amended.2.1 initImportState rowC1 (importRowCore initImportState rowC1 0 1 0 0 0 0) 1
    (by decide) (by decide) (by decide)
    (fun t h => by simp [initImportState, emptyStore] at h)

end SMMS
